import Mathlib

/-!
Verification of the SideloadedIPA change-detection and rebuild-decision engine.

This file gives a shallow embedding, in Lean 4, of the decision logic of
`scripts/check_changes.py` and `scripts/run_signing.py` from the SideloadedIPA
repository, and proves or refutes the frozen claims about it.

Modelling conventions used throughout:

* Python JSON values are modelled by the inductive type `Json` (objects are
  association lists in insertion order; numbers are restricted to integers,
  which is what the device data contains — the scripts never produce floats).
* Python `dict.get(k)` returns `Option`; `dict.get(k, d)` is `… |>.getD d`.
* Python truthiness of a string `s` is `s ≠ ""`; of an optional string it is
  `o.getD "" ≠ ""`.
* `hashlib.sha256` is implemented bit-for-bit (`sha256Hex`), and
  `json.dumps(x, sort_keys=True, separators=(",", ":"))` is implemented by
  `dumps` including Python's default `ensure_ascii=True` string escaping.
* `sorted(data, key=...)` is Python's stable sort; it is modelled by the stable
  insertion sort `List.insertionSort` from Mathlib (any two stable sorts by the
  same key agree pointwise, so this is faithful).
* Network and filesystem effects are made explicit: each function that performs
  an HTTP request takes the outcome of that request as a parameter, and the
  signing loop takes the outcomes of its external steps (profile lookup,
  download, resign, upload) as explicit booleans.
-/

set_option maxRecDepth 4096

namespace SideloadedIPA

/-! ## Python string ordering (code-point lexicographic) -/

/-- Code-point lexicographic `≤` on lists of characters, as Python compares
strings. -/
def charListLe : List Char → List Char → Bool
  | [], _ => true
  | _ :: _, [] => false
  | a :: as, b :: bs =>
    if a.toNat < b.toNat then true
    else if b.toNat < a.toNat then false
    else charListLe as bs

/-- Python string `<=` (lexicographic on code points). -/
def strLe (a b : String) : Bool := charListLe a.data b.data

/-! ## UTF-8 encoding (`str.encode("utf-8")`) -/

/-- UTF-8 encoding of a single code point, as a list of bytes. -/
def utf8EncodeChar (c : Nat) : List Nat :=
  if c < 128 then [c]
  else if c < 2048 then [192 + c / 64, 128 + c % 64]
  else if c < 65536 then [224 + c / 4096, 128 + (c / 64) % 64, 128 + c % 64]
  else [240 + c / 262144, 128 + (c / 4096) % 64, 128 + (c / 64) % 64, 128 + c % 64]

/-- UTF-8 encoding of a string, as a list of bytes (Python `s.encode("utf-8")`). -/
def utf8Bytes (s : String) : List Nat :=
  s.data.foldr (fun c acc => utf8EncodeChar c.toNat ++ acc) []

/-! ## JSON values and `json.dumps(…, sort_keys=True, separators=(",", ":"))` -/

/-- JSON values as Python's `json` module holds them, with objects as
association lists in insertion order.  Numbers are restricted to integers
(the device data never contains floats). -/
inductive Json where
  | null : Json
  | bool : Bool → Json
  | int : Int → Json
  | str : String → Json
  | arr : List Json → Json
  | obj : List (String × Json) → Json

/-- Lower-case hex digit for a nibble. -/
def hexChar (n : Nat) : Char :=
  if n < 10 then Char.ofNat (48 + n) else Char.ofNat (87 + n)

/-- Four-digit hex rendering of a code unit, for `\uXXXX` escapes. -/
def hex4 (n : Nat) : String :=
  String.mk [hexChar ((n >>> 12) &&& 15), hexChar ((n >>> 8) &&& 15),
             hexChar ((n >>> 4) &&& 15), hexChar (n &&& 15)]

/-- Escape a single code point the way `json.dumps` does with its default
`ensure_ascii=True`: two-character escapes for the classic control characters,
backslash and quote, printable ASCII verbatim, everything else as `\uXXXX`
(with a surrogate pair above U+FFFF). -/
def escapeChar (c : Nat) : String :=
  if c = 34 then "\\\""
  else if c = 92 then "\\\\"
  else if c = 8 then "\\b"
  else if c = 9 then "\\t"
  else if c = 10 then "\\n"
  else if c = 12 then "\\f"
  else if c = 13 then "\\r"
  else if c < 32 then "\\u" ++ hex4 c
  else if c ≤ 126 then String.mk [Char.ofNat c]
  else if c < 65536 then "\\u" ++ hex4 c
  else "\\u" ++ hex4 (55296 + (c - 65536) / 1024) ++ "\\u" ++ hex4 (56320 + (c - 65536) % 1024)

/-- Serialize a string as a JSON string literal, Python style. -/
def quoteStr (s : String) : String :=
  "\"" ++ String.join (s.data.map (fun c => escapeChar c.toNat)) ++ "\""

/-- Comma-join with no insignificant whitespace (`separators=(",", ":")`). -/
def joinComma : List String → String
  | [] => ""
  | [s] => s
  | s :: ss => s ++ "," ++ joinComma ss

/-- Key-ordering used by `sort_keys=True` and by `sorted(..., key=...)`:
`a` may come before `b` iff its key is `≤` the key of `b`. -/
def keyLe (key : α → String) (a b : α) : Prop := strLe (key a) (key b) = true

instance (key : α → String) : DecidableRel (keyLe key) := fun _ _ => Bool.decEq _ _

/-- Python's stable sort by a string key (`sorted(l, key=...)`), modelled by
stable insertion sort. -/
def sortByKey (key : α → String) (l : List α) : List α :=
  List.insertionSort (keyLe key) l

mutual

/-- Core of `json.dumps(…, sort_keys=True, separators=(",", ":"))`.  Object
entries are rendered first and then sorted by key; since sorting compares
keys only, this matches Python's sort-then-render order exactly. -/
def dumpJson : Json → String
  | .null => "null"
  | .bool true => "true"
  | .bool false => "false"
  | .int i => toString i
  | .str s => quoteStr s
  | .arr js => "[" ++ joinComma (dumpArr js) ++ "]"
  | .obj kvs =>
    "\x7b" ++
      joinComma ((sortByKey Prod.fst (dumpObj kvs)).map
        (fun kv => quoteStr kv.1 ++ ":" ++ kv.2)) ++
    "\x7d"

/-- Render the elements of a JSON array. -/
def dumpArr : List Json → List String
  | [] => []
  | j :: js => dumpJson j :: dumpArr js

/-- Render the entries of a JSON object (values serialized, keys kept). -/
def dumpObj : List (String × Json) → List (String × String)
  | [] => []
  | (k, v) :: kvs => (k, dumpJson v) :: dumpObj kvs

end

/-- Compact JSON serialization with sorted keys:
`json.dumps(j, sort_keys=True, separators=(",", ":"))`. -/
def dumps (j : Json) : String := dumpJson j

/-! ## SHA-256 (`hashlib.sha256`) -/

/-- 2^32, the word modulus of SHA-256. -/
def w32 : Nat := 4294967296

/-- Right rotation of a 32-bit word. -/
def rotr (n x : Nat) : Nat := ((x >>> n) ||| (x <<< (32 - n))) % w32

/-- SHA-256 Σ₀. -/
def bsig0 (x : Nat) : Nat := rotr 2 x ^^^ rotr 13 x ^^^ rotr 22 x

/-- SHA-256 Σ₁. -/
def bsig1 (x : Nat) : Nat := rotr 6 x ^^^ rotr 11 x ^^^ rotr 25 x

/-- SHA-256 σ₀. -/
def ssig0 (x : Nat) : Nat := rotr 7 x ^^^ rotr 18 x ^^^ (x >>> 3)

/-- SHA-256 σ₁. -/
def ssig1 (x : Nat) : Nat := rotr 17 x ^^^ rotr 19 x ^^^ (x >>> 10)

/-- SHA-256 Ch. -/
def chF (x y z : Nat) : Nat := (x &&& y) ^^^ ((x ^^^ 4294967295) &&& z)

/-- SHA-256 Maj. -/
def majF (x y z : Nat) : Nat := (x &&& y) ^^^ (x &&& z) ^^^ (y &&& z)

/-- The 64 SHA-256 round constants (FIPS 180-4, written in decimal). -/
def sha256K : List Nat :=
  [1116352408, 1899447441, 3049323471, 3921009573, 961987163, 1508970993,
   2453635748, 2870763221, 3624381080, 310598401, 607225278, 1426881987,
   1925078388, 2162078206, 2614888103, 3248222580, 3835390401, 4022224774,
   264347078, 604807628, 770255983, 1249150122, 1555081692, 1996064986,
   2554220882, 2821834349, 2952996808, 3210313671, 3336571891, 3584528711,
   113926993, 338241895, 666307205, 773529912, 1294757372, 1396182291,
   1695183700, 1986661051, 2177026350, 2456956037, 2730485921, 2820302411,
   3259730800, 3345764771, 3516065817, 3600352804, 4094571909, 275423344,
   430227734, 506948616, 659060556, 883997877, 958139571, 1322822218,
   1537002063, 1747873779, 1955562222, 2024104815, 2227730452, 2361852424,
   2428436474, 2756734187, 3204031479, 3329325298]

/-- The SHA-256 initial hash value (FIPS 180-4, written in decimal). -/
def sha256H0 : List Nat :=
  [1779033703, 3144134277, 1013904242, 2773480762, 1359893119, 2600822924,
   528734635, 1541459225]

/-- One step of the message-schedule extension; `rws` is the schedule so far,
most recent word first. -/
def wstep (rws : List Nat) : Nat :=
  (ssig1 (rws.getD 1 0) + rws.getD 6 0 + ssig0 (rws.getD 14 0) + rws.getD 15 0) % w32

/-- Extend the (reversed) message schedule by `n` words. -/
def extendW : Nat → List Nat → List Nat
  | 0, rws => rws
  | n + 1, rws => extendW n (wstep rws :: rws)

/-- Group bytes into 32-bit big-endian words. -/
def bytesToWords : List Nat → List Nat
  | b0 :: b1 :: b2 :: b3 :: rest =>
    (b0 * 16777216 + b1 * 65536 + b2 * 256 + b3) :: bytesToWords rest
  | _ => []

/-- One SHA-256 compression round; the state is `[a,b,c,d,e,f,g,h]`. -/
def sha256Round (kw : Nat × Nat) (st : List Nat) : List Nat :=
  match st with
  | [a, b, c, d, e, f, g, h] =>
    let t1 := (h + bsig1 e + chF e f g + kw.1 + kw.2) % w32
    let t2 := (bsig0 a + majF a b c) % w32
    [(t1 + t2) % w32, a, b, c, (d + t1) % w32, e, f, g]
  | st => st

/-- Compress one 64-byte block into the running hash (8 words). -/
def sha256Compress (h : List Nat) (block : List Nat) : List Nat :=
  let ws := (extendW 48 (bytesToWords block).reverse).reverse
  let st := (sha256K.zip ws).foldl (fun st kw => sha256Round kw st) h
  List.zipWith (fun x y => (x + y) % w32) h st

/-- SHA-256 padding: `0x80`, zeros to 56 mod 64, then the 64-bit big-endian
bit length. -/
def sha256Pad (msg : List Nat) : List Nat :=
  let len := msg.length
  let zeros := (119 - len % 64) % 64
  let bitlen := len * 8 % 18446744073709551616
  msg ++ [128] ++ List.replicate zeros 0 ++
    [bitlen >>> 56 &&& 255, bitlen >>> 48 &&& 255, bitlen >>> 40 &&& 255, bitlen >>> 32 &&& 255,
     bitlen >>> 24 &&& 255, bitlen >>> 16 &&& 255, bitlen >>> 8 &&& 255, bitlen &&& 255]

/-- Process the padded message 64 bytes at a time (the fuel dominates the
number of blocks). -/
def sha256Blocks : Nat → List Nat → List Nat → List Nat
  | 0, h, _ => h
  | fuel + 1, h, msg =>
    match msg with
    | [] => h
    | _ => sha256Blocks fuel (sha256Compress h (msg.take 64)) (msg.drop 64)

/-- Eight lower-case hex digits of a 32-bit word. -/
def wordToHex (w : Nat) : String :=
  String.mk [hexChar (w >>> 28 &&& 15), hexChar (w >>> 24 &&& 15), hexChar (w >>> 20 &&& 15),
             hexChar (w >>> 16 &&& 15), hexChar (w >>> 12 &&& 15), hexChar (w >>> 8 &&& 15),
             hexChar (w >>> 4 &&& 15), hexChar (w &&& 15)]

/-- `hashlib.sha256(bytes).hexdigest()`. -/
def sha256Hex (msg : List Nat) : String :=
  let padded := sha256Pad msg
  String.join ((sha256Blocks (padded.length + 1) sha256H0 padded).map wordToHex)

/-! ## `check_changes.calculate_checksum` -/

/-- The sort key `d.get("id", "")` used by `calculate_checksum`: the `id`
field of a device object, the empty string when missing.  (The device data
always carries string ids; a non-string id would make Python's `sorted`
raise, a state the scripts never reach.) -/
def getId (d : Json) : String :=
  match d with
  | .obj kvs =>
    match kvs.lookup "id" with
    | some (.str s) => s
    | _ => ""
  | _ => ""

/-- `check_changes.calculate_checksum`: sort the devices by id (stable, key
`d.get("id", "")`), serialize compactly with sorted keys, SHA-256 the UTF-8
bytes and prefix `sha256:`. -/
def calculate_checksum (data : List Json) : String :=
  let normalized := sortByKey getId data
  let json_str := dumps (Json.arr normalized)
  "sha256:" ++ sha256Hex (utf8Bytes json_str)

/-- Sanity check of the SHA-256 core against the FIPS 180-2 "abc" vector. -/
theorem sha256Hex_abc :
    sha256Hex (utf8Bytes "abc") =
      "ba7816bf8f01cfea414140de5dae2223b00361a396177a9cb410ff61f20015ad" := by
  decide

/-- Sanity check of the SHA-256 core against the empty-message vector. -/
theorem sha256Hex_empty :
    sha256Hex [] = "e3b0c44298fc1c149afbf4c8996fb92427ae41e4649b934ca495991b7852b855" := by
  decide

/-! ## `fnmatch.fnmatch` (glob matching, POSIX case rules) -/

/-- Tokens of a compiled glob pattern. -/
inductive GlobToken where
  | lit (c : Char)
  | anyOne
  | anySeq
  | cls (neg : Bool) (ranges : List (Nat × Nat))

/-- Parse the members of a bracket class, up to the closing `]`.  Returns the
ranges (a single character `c` is the range `(c, c)`) and the rest of the
pattern; `none` when the class is unterminated. -/
def clsMembers : List Char → Option (List (Nat × Nat) × List Char)
  | [] => none
  | ']' :: rest => some ([], rest)
  | a :: '-' :: b :: rest =>
    if b = ']' then some ([(a.toNat, a.toNat), (45, 45)], rest)
    else
      match clsMembers rest with
      | some (rs, rest2) => some ((a.toNat, b.toNat) :: rs, rest2)
      | none => none
  | a :: rest =>
    match clsMembers rest with
    | some (rs, rest2) => some ((a.toNat, a.toNat) :: rs, rest2)
    | none => none

/-- Parse a bracket class body (after the opening `[`): optional leading `!`
negation, a leading `]` is a literal member. -/
def parseCls (cs : List Char) : Option (Bool × List (Nat × Nat) × List Char) :=
  let core := fun (neg : Bool) (cs1 : List Char) =>
    match cs1 with
    | ']' :: rest =>
      match clsMembers rest with
      | some (rs, rest2) => some (neg, ((93, 93) :: rs : List (Nat × Nat)), rest2)
      | none => none
    | _ =>
      match clsMembers cs1 with
      | some (rs, rest2) => some (neg, rs, rest2)
      | none => none
  match cs with
  | '!' :: rest => core true rest
  | _ => core false cs

/-- Fuelled glob compiler (the fuel bounds the pattern length; an
unterminated `[` is a literal, as in `fnmatch.translate`). -/
def compileGlobF : Nat → List Char → List GlobToken
  | 0, _ => []
  | fuel + 1, pat =>
    match pat with
    | [] => []
    | '*' :: ps => .anySeq :: compileGlobF fuel ps
    | '?' :: ps => .anyOne :: compileGlobF fuel ps
    | '[' :: ps =>
      match parseCls ps with
      | some (neg, rs, rest) => .cls neg rs :: compileGlobF fuel rest
      | none => .lit '[' :: compileGlobF fuel ps
    | c :: ps => .lit c :: compileGlobF fuel ps

/-- Compile a glob pattern into tokens. -/
def compileGlob (pat : List Char) : List GlobToken := compileGlobF pat.length pat

/-- All suffixes of a list, longest first. -/
def suffixes : List Char → List (List Char)
  | [] => [[]]
  | c :: cs => (c :: cs) :: suffixes cs

/-- Class membership test. -/
def inCls (neg : Bool) (rs : List (Nat × Nat)) (c : Char) : Bool :=
  let mem := rs.any (fun r => decide (r.1 ≤ c.toNat) && decide (c.toNat ≤ r.2))
  if neg then !mem else mem

/-- Match compiled glob tokens against a name; `anySeq` (`*`) matches any
run of characters, including dots and slashes, as `fnmatch` does. -/
def matchTokens : List GlobToken → List Char → Bool
  | [], name => name.isEmpty
  | .lit c :: ts, name =>
    match name with
    | [] => false
    | n :: ns => c == n && matchTokens ts ns
  | .anyOne :: ts, name =>
    match name with
    | [] => false
    | _ :: ns => matchTokens ts ns
  | .anySeq :: ts, name => (suffixes name).any (fun s => matchTokens ts s)
  | .cls neg rs :: ts, name =>
    match name with
    | [] => false
    | n :: ns => inCls neg rs n && matchTokens ts ns

/-- `fnmatch.fnmatch(name, pattern)` (POSIX: `normcase` is the identity). -/
def fnmatch (name : String) (pat : String) : Bool :=
  matchTokens (compileGlob pat.data) name.data

/-! ## `parse_repo_url` (the regex `github\.com[:/]([^/]+)/([^/\.]+)`) -/

/-- Drop a literal prefix of characters, or fail. -/
def dropLit : List Char → List Char → Option (List Char)
  | [], cs => some cs
  | _ :: _, [] => none
  | p :: ps, c :: cs => if p = c then dropLit ps cs else none

/-- Try to match `github\.com[:/]([^/]+)/([^/\.]+)` at the head of `cs`.
The character classes cannot cross a `/`, so the regex engine's greedy
matching with backtracking degenerates to maximal-run scanning. -/
def githubMatchAt (cs : List Char) : Option (String × String) :=
  match dropLit "github.com".data cs with
  | none => none
  | some rest =>
    match rest with
    | [] => none
    | c :: rest2 =>
      if c == ':' || c == '/' then
        let g1 := rest2.takeWhile (fun d => d != '/')
        let rest3 := rest2.dropWhile (fun d => d != '/')
        if g1.isEmpty then none
        else
          match rest3 with
          | '/' :: rest4 =>
            let g2 := rest4.takeWhile (fun d => d != '/' && d != '.')
            if g2.isEmpty then none else some (String.mk g1, String.mk g2)
          | _ => none
      else none

/-- `re.search`: try every start position, leftmost match wins. -/
def reSearchGithub : List Char → Option (String × String)
  | [] => none
  | c :: cs =>
    match githubMatchAt (c :: cs) with
    | some r => some r
    | none => reSearchGithub cs

/-- `parse_repo_url` (identical in both scripts): extract `(owner, repo)`
from a GitHub remote URL, or raise `ValueError`. -/
def parse_repo_url (repo_url : String) : Except String (String × String) :=
  match reSearchGithub repo_url.data with
  | some r => .ok r
  | none => .error ("Invalid GitHub repository URL: " ++ repo_url)

/-! ## Data model: tasks, cache entries, releases, snapshots -/

/-- A release-cache entry (`release-versions.json` `tasks` values and the
`version_info` dict built by `should_rebuild_task`); every field is read with
`dict.get`, hence optional. -/
structure VersionInfo where
  version : Option String := none
  published_at : Option String := none
  download_url : Option String := none
  asset_id : Option Int := none
deriving DecidableEq, Inhabited

/-- A release asset, with the fields the scripts read. -/
structure Asset where
  name : Option String := none
  browser_download_url : Option String := none
  id : Option Int := none
deriving DecidableEq

/-- A GitHub release, with the fields the scripts read (`prerelease` is the
truthiness of the JSON field). -/
structure Release where
  tag_name : Option String := none
  published_at : Option String := none
  prerelease : Bool := false
  assets : List Asset := []
deriving DecidableEq

/-- A task entry from `tasks.toml`, with the fields the scripts read.
`use_prerelease` is read as `task.get("use_prerelease", False)` and
`release_glob` as `task.get("release_glob", "*.ipa")`. -/
structure Task where
  task_name : Option String := none
  app_name : Option String := none
  bundle_id : Option String := none
  asset_server_path : Option String := none
  ipa_url : Option String := none
  repo_url : Option String := none
  use_prerelease : Bool := false
  release_glob : Option String := none
deriving DecidableEq

/-- A device-list snapshot (`device-list.json`): the `checksum` field (absent
modelled as `none`) and the `devices` list (absent modelled as `[]`, matching
`snapshot.get("devices", [])`). -/
structure Snapshot where
  checksum : Option String := none
  devices : List Json := []

/-- Python string truthiness on an optional string: `none` for `None` and for
`""`, `some s` for a non-empty string. -/
def truthyStr (o : Option String) : Option String :=
  match o with
  | some s => if s = "" then none else some s
  | none => none

/-- `dict.get(k)` on a string-keyed association list. -/
def lookupStr (k : String) : List (String × α) → Option α
  | [] => none
  | (k', v) :: rest => if k' = k then some v else lookupStr k rest

/-- `dict[k] = v` on a string-keyed association list. -/
def setStr (k : String) (v : α) : List (String × α) → List (String × α)
  | [] => [(k, v)]
  | (k', v') :: rest => if k' = k then (k, v) :: rest else (k', v') :: setStr k v rest

/-! ## `check_changes.compare_device_lists` -/

/-- The current snapshot's effective checksum: `current.get("checksum", "")`,
recomputed from the device list when falsy (absent or empty). -/
def effectiveCurrentChecksum (current : Snapshot) : String :=
  let c := current.checksum.getD ""
  if c = "" then calculate_checksum current.devices else c

/-- `check_changes.compare_device_lists`, with the two loaded JSON files as
inputs (`none` = file missing or unreadable).  Returns
`(devices_changed, cached_data, current_data)`. -/
def compare_device_lists :
    Option Snapshot → Option Snapshot → Bool × Option Snapshot × Option Snapshot
  | none, current => (true, none, current)
  | some cached, none => (true, some cached, none)
  | some cached, some current =>
    let cached_checksum := cached.checksum.getD ""
    let current_checksum := effectiveCurrentChecksum current
    (cached_checksum != current_checksum, some cached, some current)


/-! ## `check_changes.check_github_release_version` -/

/-- The parsed body of a successful GitHub release-API response: a single
release from `/releases/latest`, or the full list from `/releases`. -/
inductive ReleasesPayload where
  | one (release : Release)
  | many (releases : List Release)

/-- Outcome of the single `urllib.request.urlopen` call made by
`check_github_release_version`. -/
inductive CCFetch where
  | success (payload : ReleasesPayload)
  | httpError (code : Nat)
  | urlError

/-- Result of `check_github_release_version`: either the returned pair
`(has_changed, reason)` or a `sys.exit(code)` that aborts the whole process. -/
inductive CheckOutcome where
  | result (changed : Bool) (reason : Option String)
  | fatalExit (code : Nat)
deriving DecidableEq

/-- The cache-comparison core shared by both scripts (lines 244–263 of
`check_changes.py` and 410–429 of `run_signing.py`): compare the cached
`(version, published_at)` against the live release's values.  An absent or
empty cached version is falsy in Python, hence `first_run`. -/
def versionCompareCore (cached_task : VersionInfo) (cur_ver cur_pub : Option String) :
    Bool × Option String :=
  match truthyStr cached_task.version with
  | none => (true, some "first_run")
  | some cached_version =>
    if (some cached_version : Option String) ≠ cur_ver then (true, some "version_changed")
    else if cached_task.published_at ≠ cur_pub then (true, some "republished")
    else (false, some "up_to_date")

/-- Prerelease selection used on a `/releases` list in both scripts: the
first entry flagged `prerelease`, else the first entry, else `none`. -/
def selectPrerelease (releases : List Release) : Option Release :=
  match releases.find? (fun r => r.prerelease) with
  | some r => some r
  | none => releases.head?

/-- `check_changes.check_github_release_version`.  The network is passed in
as the outcome `fetch` of the one HTTP request the function makes; an HTTP
403 calls `sys.exit(1)` (modelled as `fatalExit`), any other `HTTPError` or
`URLError` yields `api_error`.  A response whose JSON shape does not match
the endpoint would raise in Python and is caught by the blanket
`except Exception` as reason `error`. -/
def check_github_release_version (task : Task) (task_name : String)
    (cached_versions : List (String × VersionInfo)) (fetch : CCFetch) : CheckOutcome :=
  if task.repo_url.getD "" = "" then .result false none
  else
    match parse_repo_url (task.repo_url.getD "") with
    | .error _ => .result true (some "invalid_repo_url")
    | .ok _ =>
      match fetch with
      | .httpError code =>
        if code = 403 then .fatalExit 1 else .result true (some "api_error")
      | .urlError => .result true (some "api_error")
      | .success payload =>
        match task.use_prerelease, payload with
        | true, .many releases =>
          match selectPrerelease releases with
          | none => .result true (some "no_releases")
          | some release =>
            let r := versionCompareCore ((lookupStr task_name cached_versions).getD default)
              release.tag_name release.published_at
            .result r.1 r.2
        | false, .one release =>
          let r := versionCompareCore ((lookupStr task_name cached_versions).getD default)
            release.tag_name release.published_at
          .result r.1 r.2
        | _, _ => .result true (some "error")

/-! ## `check_changes.get_tasks_to_rebuild` -/

/-- `task.get("task_name")` filtered through Python truthiness (falsy names
are skipped by the planner loop). -/
def truthyName (t : Task) : Option String := truthyStr t.task_name

/-- The set `{task.get("task_name") for task in tasks if task.get("task_name")}`,
as a list (membership is what the claims are about). -/
def allTaskNames (tasks : List Task) : List String := tasks.filterMap truthyName

/-- The per-task loop of `get_tasks_to_rebuild`.  `env name` is the outcome
of the HTTP request the check for task `name` would make; a `fatalExit` from
the check aborts the whole process (`Except.error`). -/
def rebuildLoop (cached_versions : List (String × VersionInfo)) (env : String → CCFetch) :
    List Task → Except Nat (List String)
  | [] => .ok []
  | t :: ts =>
    match truthyName t with
    | none => rebuildLoop cached_versions env ts
    | some name =>
      if t.ipa_url.getD "" ≠ "" then
        (rebuildLoop cached_versions env ts).map (fun s => name :: s)
      else if t.repo_url.getD "" ≠ "" then
        match check_github_release_version t name cached_versions (env name) with
        | .fatalExit c => .error c
        | .result changed _ =>
          (rebuildLoop cached_versions env ts).map (fun s => if changed then name :: s else s)
      else
        (rebuildLoop cached_versions env ts).map (fun s => name :: s)

/-- `check_changes.get_tasks_to_rebuild`: with `rebuild_all` the full name
set is returned without consulting the cache or the network; otherwise the
per-task loop decides membership. -/
def get_tasks_to_rebuild (tasks : List Task) (cached_versions : List (String × VersionInfo))
    (rebuild_all : Bool) (env : String → CCFetch) : Except Nat (List String) :=
  if rebuild_all then .ok (allTaskNames tasks)
  else rebuildLoop cached_versions env tasks

/-! ## `run_signing.GitHubAPIClient` and `should_rebuild_task` -/

/-- Outcome of a `GitHubAPIClient._make_request` call: parsed JSON body,
re-raised `HTTPError` with its code, or re-raised `URLError`. -/
inductive ApiResult (α : Type) where
  | ok (val : α)
  | httpErr (code : Nat)
  | urlErr
deriving DecidableEq

/-- `fetch_latest_release` with `use_prerelease=False`: `/releases/latest`,
404 means "no stable release" and returns `None`; other errors propagate. -/
def fetchLatestStable (resp : ApiResult Release) : ApiResult (Option Release) :=
  match resp with
  | .ok r => .ok (some r)
  | .httpErr 404 => .ok none
  | .httpErr c => .httpErr c
  | .urlErr => .urlErr

/-- `fetch_latest_release` with `use_prerelease=True`: `/releases`, empty
list or 404 return `None`, otherwise the first prerelease (falling back to
the first release); other errors propagate. -/
def fetchLatestPrerelease (resp : ApiResult (List Release)) : ApiResult (Option Release) :=
  match resp with
  | .ok [] => .ok none
  | .ok releases => .ok (selectPrerelease releases)
  | .httpErr 404 => .ok none
  | .httpErr c => .httpErr c
  | .urlErr => .urlErr

/-- `GitHubAPIClient.find_matching_asset`: all assets whose name matches the
glob, first match returned (a multiple-match warning is log-only). -/
def find_matching_asset (release : Release) (glob_pattern : String) : Option Asset :=
  let assets := release.assets
  if assets.isEmpty then none
  else
    let matched := assets.filter (fun a => fnmatch (a.name.getD "") glob_pattern)
    matched.head?

/-- `run_signing.should_rebuild_task`.  `fetched` is the outcome of
`github_client.fetch_latest_release` (after its own 404/empty handling, see
`fetchLatestStable`/`fetchLatestPrerelease`); an error outcome is the
exception that the function's blanket `except Exception` turns into
`(False, None, None)`, as is an unparseable `repo_url`.  Returns
`(should_rebuild, download_url, version_info_to_cache)`. -/
def should_rebuild_task (task : Task) (task_name : String)
    (cache_tasks : List (String × VersionInfo)) (hasClient : Bool)
    (fetched : ApiResult (Option Release)) (force_rebuild : Bool) :
    Bool × Option String × Option VersionInfo :=
  if task.ipa_url.getD "" ≠ "" then (true, task.ipa_url, none)
  else if task.repo_url.getD "" ≠ "" && hasClient then
    match parse_repo_url (task.repo_url.getD "") with
    | .error _ => (false, none, none)
    | .ok _ =>
      match fetched with
      | .httpErr _ => (false, none, none)
      | .urlErr => (false, none, none)
      | .ok none => (false, none, none)
      | .ok (some release) =>
        match find_matching_asset release (task.release_glob.getD "*.ipa") with
        | none => (false, none, none)
        | some asset =>
          let download_url := asset.browser_download_url
          let version_info : VersionInfo :=
            ⟨release.tag_name, release.published_at, download_url, asset.id⟩
          if force_rebuild then (true, download_url, some version_info)
          else
            let cached_task := (lookupStr task_name cache_tasks).getD default
            match truthyStr cached_task.version with
            | none => (true, download_url, some version_info)
            | some cached_version =>
              if (some cached_version : Option String) ≠ release.tag_name then
                (true, download_url, some version_info)
              else if cached_task.published_at ≠ release.published_at then
                (true, download_url, some version_info)
              else (false, download_url, none)
  else (true, none, none)

/-! ## The `run_signing.main` per-task loop (lines 545–727) -/

/-- The run-level directives `main` reads from the environment:
`REBUILD_ALL`, the optional `REBUILD_TASKS` list, and whether a GitHub
client could be constructed. -/
structure RunCfg where
  rebuild_all : Bool := false
  rebuild_tasks : Option (List String) := none
  hasClient : Bool := true

/-- Outcomes of the external steps of one task's pipeline: the release
fetch, the synced-profile lookup, the `curl` download (and the downloaded
file being non-empty), the `fastlane` resign, the artifact finalization
block, the signed file being non-empty, `ensure_remote_dir`, and the `scp`
upload. -/
structure TaskEnv where
  fetched : ApiResult (Option Release) := .ok none
  profile_exists : Bool := true
  download_ok : Bool := true
  downloaded_ok : Bool := true
  resign_ok : Bool := true
  finalize_ok : Bool := true
  signed_ok : Bool := true
  ensure_dir_ok : Bool := true
  scp_ok : Bool := true

/-- All external pipeline steps of a task succeeded. -/
def taskAllOk (env : TaskEnv) : Bool :=
  env.profile_exists && env.download_ok && env.downloaded_ok && env.resign_ok &&
  env.finalize_ok && env.signed_ok && env.ensure_dir_ok && env.scp_ok

/-- Effect of one iteration of the `main` task loop on the in-memory release
cache, plus the `any_fail` / `processed_count` / `skipped_count`
contributions of that iteration. -/
structure TaskStep where
  cache : List (String × VersionInfo)
  failed : Bool
  processed : Bool
  skipped : Bool

/-- The rebuild decision of one iteration of the `main` task loop (lines
553–604): `none` means the task is skipped (`continue`), `some (url, vi)`
carries the download URL and the version info to cache after success.  The
three branches are `REBUILD_ALL` (forced check), `REBUILD_TASKS` membership
(forced check), and the individual version check. -/
def mainTaskDecision (cfg : RunCfg) (env : TaskEnv) (cache : List (String × VersionInfo))
    (task : Task) : Option (Option String × Option VersionInfo) :=
  let name := task.task_name.getD ""
  if cfg.rebuild_all then
    let r := should_rebuild_task task name cache cfg.hasClient env.fetched true
    some (r.2.1, r.2.2)
  else
    match cfg.rebuild_tasks with
    | some allowed =>
      if name ∈ allowed then
        let r := should_rebuild_task task name cache cfg.hasClient env.fetched true
        some (r.2.1, r.2.2)
      else none
    | none =>
      let r := should_rebuild_task task name cache cfg.hasClient env.fetched false
      if r.1 then some (r.2.1, r.2.2) else none

/-- The pipeline part of one iteration of the `main` task loop (lines
606–723): the steps run in order, the first failing step sets `any_fail` and
skips to the next task (`continue`), and the cache entry is assigned only
after a successful upload and only when `version_info` is set. -/
def pipelineStep (env : TaskEnv) (cache : List (String × VersionInfo)) (name : String)
    (ipa_url : Option String) (version_info : Option VersionInfo) : TaskStep :=
  if ipa_url.getD "" = "" then ⟨cache, true, false, false⟩
  else if !env.profile_exists then ⟨cache, true, true, false⟩
  else if !env.download_ok then ⟨cache, true, true, false⟩
  else if !env.downloaded_ok then ⟨cache, true, true, false⟩
  else if !env.resign_ok then ⟨cache, true, true, false⟩
  else if !env.finalize_ok then ⟨cache, true, true, false⟩
  else if !env.signed_ok then ⟨cache, true, true, false⟩
  else if !env.ensure_dir_ok then ⟨cache, true, true, false⟩
  else if !env.scp_ok then ⟨cache, true, true, false⟩
  else
    match version_info with
    | some vi => ⟨setStr name vi cache, false, true, false⟩
    | none => ⟨cache, false, true, false⟩

/-- One iteration of the task loop of `run_signing.main`, lines 545–723:
decide rebuild, then run the pipeline. -/
def processTask (cfg : RunCfg) (env : TaskEnv) (cache : List (String × VersionInfo))
    (task : Task) : TaskStep :=
  match mainTaskDecision cfg env cache task with
  | none => ⟨cache, false, false, true⟩
  | some (ipa_url, version_info) =>
    pipelineStep env cache (task.task_name.getD "") ipa_url version_info

/-- Accumulated state of a `run_signing.main` run. -/
structure RunResult where
  cache : List (String × VersionInfo)
  any_fail : Bool
  processedCount : Nat
  skippedCount : Nat

/-- The task loop of `run_signing.main`, folded over the tasks with each
task's external outcomes. -/
def runTasks (cfg : RunCfg) : List (Task × TaskEnv) → RunResult → RunResult
  | [], acc => acc
  | (t, e) :: rest, acc =>
    let s := processTask cfg e acc.cache t
    runTasks cfg rest ⟨s.cache, acc.any_fail || s.failed,
      acc.processedCount + (if s.processed then 1 else 0),
      acc.skippedCount + (if s.skipped then 1 else 0)⟩

/-- `run_signing.main` from the start of the task loop: returns the exit
code (5 when any task failed, 0 otherwise, line 748–752) together with the
final state; the final cache is what `save_release_cache` persists. -/
def run_signing_main (cfg : RunCfg) (taskEnvs : List (Task × TaskEnv))
    (initial_cache : List (String × VersionInfo)) : Nat × RunResult :=
  let r := runTasks cfg taskEnvs ⟨initial_cache, false, 0, 0⟩
  (if r.any_fail then 5 else 0, r)

/-! ## Order theory of `strLe` and uniqueness of the stable sort -/

/-- Totality of the code-point order. -/
theorem charListLe_total : ∀ as bs : List Char, charListLe as bs = true ∨ charListLe bs as = true
  | [], _ => Or.inl rfl
  | _ :: _, [] => Or.inr rfl
  | a :: as, b :: bs => by
    simp only [charListLe]
    rcases Nat.lt_trichotomy a.toNat b.toNat with h | h | h
    · left
      simp [h]
    · have h1 : ¬ a.toNat < b.toNat := by omega
      have h2 : ¬ b.toNat < a.toNat := by omega
      simpa [h1, h2] using charListLe_total as bs
    · right
      simp [h]

/-- Transitivity of the code-point order. -/
theorem charListLe_trans :
    ∀ as bs cs : List Char,
      charListLe as bs = true → charListLe bs cs = true → charListLe as cs = true
  | [], _, _, _, _ => rfl
  | _ :: _, [], _, h1, _ => by simp [charListLe] at h1
  | _ :: _, _ :: _, [], _, h2 => by simp [charListLe] at h2
  | a :: as, b :: bs, c :: cs, h1, h2 => by
    simp only [charListLe] at h1 h2 ⊢
    rcases Nat.lt_trichotomy a.toNat b.toNat with hab | hab | hab <;>
      rcases Nat.lt_trichotomy b.toNat c.toNat with hbc | hbc | hbc <;>
      [skip; skip; skip; skip; skip; skip; skip; skip; skip] <;>
      first
      | (have hac : a.toNat < c.toNat := by omega
         simp [hac])
      | (simp only [show ¬ a.toNat < b.toNat by omega,
          show ¬ b.toNat < a.toNat by omega, if_neg, ite_false] at h1 <;> omega)
      | (simp [show ¬ b.toNat < c.toNat by omega, show c.toNat < b.toNat by omega] at h2)
      | (simp [show ¬ a.toNat < b.toNat by omega, show b.toNat < a.toNat by omega] at h1)
      | (have hne1 : ¬ a.toNat < b.toNat := by omega
         have hne2 : ¬ b.toNat < a.toNat := by omega
         have hne3 : ¬ b.toNat < c.toNat := by omega
         have hne4 : ¬ c.toNat < b.toNat := by omega
         have hne5 : ¬ a.toNat < c.toNat := by omega
         have hne6 : ¬ c.toNat < a.toNat := by omega
         simp only [hne1, hne2, if_false] at h1
         simp only [hne3, hne4, if_false] at h2
         simpa [hne5, hne6] using charListLe_trans as bs cs h1 h2)

/-- Antisymmetry of the code-point order. -/
theorem charListLe_antisymm :
    ∀ as bs : List Char, charListLe as bs = true → charListLe bs as = true → as = bs
  | [], [], _, _ => rfl
  | [], _ :: _, _, h2 => by simp [charListLe] at h2
  | _ :: _, [], h1, _ => by simp [charListLe] at h1
  | a :: as, b :: bs, h1, h2 => by
    simp only [charListLe] at h1 h2
    rcases Nat.lt_trichotomy a.toNat b.toNat with hab | hab | hab
    · simp [show ¬ b.toNat < a.toNat by omega, hab] at h2
    · have h1' : ¬ a.toNat < b.toNat := by omega
      have h2' : ¬ b.toNat < a.toNat := by omega
      simp only [h1', h2', if_false] at h1 h2
      have heq : a = b := by
        have ha := Char.ofNat_toNat a
        have hb := Char.ofNat_toNat b
        rw [← ha, ← hb, hab]
      rw [heq, charListLe_antisymm as bs h1 h2]
    · simp [show ¬ a.toNat < b.toNat by omega, hab] at h1

/-- Totality of `strLe`. -/
theorem strLe_total (a b : String) : strLe a b = true ∨ strLe b a = true :=
  charListLe_total a.data b.data

/-- Transitivity of `strLe`. -/
theorem strLe_trans {a b c : String} (h1 : strLe a b = true) (h2 : strLe b c = true) :
    strLe a c = true :=
  charListLe_trans a.data b.data c.data h1 h2

/-- Antisymmetry of `strLe`. -/
theorem strLe_antisymm {a b : String} (h1 : strLe a b = true) (h2 : strLe b a = true) : a = b := by
  have h := charListLe_antisymm a.data b.data h1 h2
  cases a
  cases b
  exact congrArg String.mk h

instance (key : α → String) : IsTotal α (keyLe key) :=
  ⟨fun a b => strLe_total (key a) (key b)⟩

instance (key : α → String) : IsTrans α (keyLe key) :=
  ⟨fun _ _ _ => strLe_trans⟩

/-- The stable sort permutes its input (`List.perm_insertionSort`). -/
theorem sortByKey_perm (key : α → String) (l : List α) : (sortByKey key l).Perm l :=
  List.perm_insertionSort _ l

/-- The stable sort sorts (`List.sorted_insertionSort`). -/
theorem sortByKey_sorted (key : α → String) (l : List α) :
    (sortByKey key l).Sorted (keyLe key) :=
  List.sorted_insertionSort _ l

/-- Two sorted lists that are permutations of each other are equal, given
antisymmetry of the order on the elements actually present. -/
theorem sorted_eq_of_perm {r : α → α → Prop} :
    ∀ {l₁ l₂ : List α}, l₁.Perm l₂ → l₁.Sorted r → l₂.Sorted r →
      (∀ a ∈ l₁, ∀ b ∈ l₁, r a b → r b a → a = b) → l₁ = l₂
  | [], l₂, p, _, _, _ => (List.Perm.eq_nil p.symm).symm
  | a :: t₁, [], p, _, _, _ => absurd (List.Perm.eq_nil p) (by simp)
  | a :: t₁, b :: t₂, p, s₁, s₂, antisym => by
    by_cases hab : a = b
    · subst hab
      have p' := p.cons_inv
      have ih := sorted_eq_of_perm p' s₁.of_cons s₂.of_cons
        (fun x hx y hy => antisym x (List.mem_cons_of_mem _ hx) y (List.mem_cons_of_mem _ hy))
      rw [ih]
    · have hb1 : b ∈ a :: t₁ := p.symm.subset (List.mem_cons_self _ _)
      have ha2 : a ∈ b :: t₂ := p.subset (List.mem_cons_self _ _)
      have hb : b ∈ t₁ := by
        rcases List.mem_cons.mp hb1 with h | h
        · exact absurd h.symm hab
        · exact h
      have ha : a ∈ t₂ := by
        rcases List.mem_cons.mp ha2 with h | h
        · exact absurd h hab
        · exact h
      have rab : r a b := List.rel_of_sorted_cons s₁ b hb
      have rba : r b a := List.rel_of_sorted_cons s₂ a ha
      exact absurd (antisym a (List.mem_cons_self _ _) b (List.mem_cons_of_mem _ hb) rab rba) hab

/-- A stable key sort is invariant under permutation of its input as long as
the key is injective on the elements present. -/
theorem sortByKey_eq_of_perm (key : α → String) {l l' : List α} (p : l.Perm l')
    (hinj : ∀ a ∈ l, ∀ b ∈ l, key a = key b → a = b) :
    sortByKey key l = sortByKey key l' := by
  have pp : (sortByKey key l).Perm (sortByKey key l') :=
    ((sortByKey_perm key l).trans p).trans (sortByKey_perm key l').symm
  refine sorted_eq_of_perm pp (sortByKey_sorted key l) (sortByKey_sorted key l') ?_
  intro a ha b hb rab rba
  have ha' : a ∈ l := (sortByKey_perm key l).subset ha
  have hb' : b ∈ l := (sortByKey_perm key l).subset hb
  exact hinj a ha' b hb' (strLe_antisymm rab rba)

/-! ## Claim theorems -/

/-- C4: `compare_device_lists` returns `changed=true` whenever the cached
snapshot is absent, and whenever the current snapshot is absent; when both
snapshots exist it returns `changed=true` exactly when the two checksum
values differ, where the current snapshot's checksum, if absent (or empty,
which is the same falsy value in Python), is first computed from its device
list with the same sort-and-hash algorithm (`effectiveCurrentChecksum`,
which calls `calculate_checksum`). -/
theorem C4_compare_device_lists_spec :
    (∀ current, (compare_device_lists none current).1 = true) ∧
    (∀ cached, (compare_device_lists (some cached) none).1 = true) ∧
    (∀ cached current,
      (compare_device_lists (some cached) (some current)).1 = true ↔
        cached.checksum.getD "" ≠ effectiveCurrentChecksum current) := by
  refine ⟨fun current => rfl, fun cached => rfl, fun cached current => ?_⟩
  simp [compare_device_lists]

/-- C10: when the cached snapshot's checksum field is absent or empty,
`compare_device_lists` never recomputes the cached checksum from the cached
device list — the result does not depend on the cached devices at all — and
it compares the empty string against the current side, hence reports
`changed=true` exactly when the current (possibly recomputed) checksum is
non-empty, even when the two device lists are identical. -/
theorem C10_cached_checksum_never_recomputed (cached current : Snapshot)
    (h : cached.checksum.getD "" = "") :
    ((compare_device_lists (some cached) (some current)).1 = true ↔
      effectiveCurrentChecksum current ≠ "") ∧
    (∀ devs, (compare_device_lists (some { cached with devices := devs }) (some current)).1 =
      (compare_device_lists (some cached) (some current)).1) := by
  constructor
  · simp only [compare_device_lists, bne_iff_ne, ne_eq, h]
    exact ne_comm
  · intro devs
    simp [compare_device_lists]

/-- Closed witness for C10: identical one-device lists on both sides, cached
checksum absent, current checksum recomputed — the differ still reports a
change. -/
theorem C10_witness :
    (compare_device_lists (some ⟨none, [Json.obj [("id", Json.str "a")]]⟩)
      (some ⟨none, [Json.obj [("id", Json.str "a")]]⟩)).1 = true :=
  ((C10_cached_checksum_never_recomputed ⟨none, [Json.obj [("id", Json.str "a")]]⟩
      ⟨none, [Json.obj [("id", Json.str "a")]]⟩ rfl).1).mpr (by decide)

/-- C9: `parse_repo_url` yields `("o", "r")` on the three GitHub remote
forms, raises on a GitLab URL, and an unparseable `repo_url` makes
`check_github_release_version` return `should_rebuild=true` with reason
`invalid_repo_url`. -/
theorem C9_parse_repo_url_spec :
    parse_repo_url "https://github.com/o/r" = .ok ("o", "r") ∧
    parse_repo_url "https://github.com/o/r.git" = .ok ("o", "r") ∧
    parse_repo_url "git@github.com:o/r" = .ok ("o", "r") ∧
    (∃ msg, parse_repo_url "https://gitlab.com/o/r" = .error msg) ∧
    (∀ (task : Task) (name : String) (cache : List (String × VersionInfo)) (fetch : CCFetch)
      (msg : String),
      task.repo_url.getD "" ≠ "" →
      parse_repo_url (task.repo_url.getD "") = .error msg →
      check_github_release_version task name cache fetch =
        .result true (some "invalid_repo_url")) := by
  refine ⟨rfl, rfl, rfl, ⟨_, rfl⟩, ?_⟩
  intro task name cache fetch msg h1 h2
  simp [check_github_release_version, h1, h2]

/-- Closed witness for C9: a GitLab `repo_url` forces a rebuild with reason
`invalid_repo_url`. -/
theorem C9_witness :
    check_github_release_version { repo_url := some "https://gitlab.com/o/r" } "T" [] .urlError =
      .result true (some "invalid_repo_url") :=
  C9_parse_repo_url_spec.2.2.2.2 { repo_url := some "https://gitlab.com/o/r" } "T" [] .urlError _
    (by decide) rfl

/-- The head of a filtered list is the first element satisfying the
predicate. -/
theorem head?_filter_eq_find? (p : α → Bool) : ∀ l : List α, (l.filter p).head? = l.find? p
  | [] => rfl
  | a :: l => by
    by_cases h : p a <;> simp [List.filter_cons, List.find?_cons, h, head?_filter_eq_find? p l]

/-- C7: `find_matching_asset` returns the first asset, in API order, whose
name matches the glob (the multiple-match warning is log-only); `"*.ipa"`
against `["app.ipa", "app-debug.ipa"]` selects `"app.ipa"` and `"*.apk"`
selects nothing; and when zero assets match, `should_rebuild_task` returns
`should_rebuild=false` with no download URL (and no cache entry). -/
theorem C7_find_matching_asset_spec :
    (∀ (release : Release) (glob : String),
      find_matching_asset release glob =
        release.assets.find? (fun a => fnmatch (a.name.getD "") glob)) ∧
    (find_matching_asset
        { assets := [{ name := some "app.ipa" }, { name := some "app-debug.ipa" }] } "*.ipa" =
      some { name := some "app.ipa" }) ∧
    (find_matching_asset
        { assets := [{ name := some "app.ipa" }, { name := some "app-debug.ipa" }] } "*.apk" =
      none) ∧
    (∀ (task : Task) (name : String) (cache : List (String × VersionInfo)) (release : Release)
      (force : Bool),
      task.ipa_url.getD "" = "" →
      task.repo_url.getD "" ≠ "" →
      (∃ pr, parse_repo_url (task.repo_url.getD "") = .ok pr) →
      find_matching_asset release (task.release_glob.getD "*.ipa") = none →
      should_rebuild_task task name cache true (.ok (some release)) force =
        (false, none, none)) := by
  refine ⟨?_, by decide, by decide, ?_⟩
  · intro release glob
    unfold find_matching_asset
    by_cases h : release.assets.isEmpty
    · rw [List.isEmpty_iff] at h
      simp [h]
    · simp [h, head?_filter_eq_find?]
  · intro task name cache release force hipa hrepo ⟨pr, hparse⟩ hasset
    simp [should_rebuild_task, hipa, hrepo, hparse, hasset]

/-- Closed witness for C7: a release whose only asset does not match the
default `*.ipa` glob makes the signing-side check a skip. -/
theorem C7_witness :
    should_rebuild_task { repo_url := some "https://github.com/o/r" } "T" [] true
      (.ok (some { assets := [{ name := some "app.zip" }] })) false = (false, none, none) :=
  C7_find_matching_asset_spec.2.2.2 { repo_url := some "https://github.com/o/r" } "T" []
    { assets := [{ name := some "app.zip" }] } false rfl (by decide) ⟨("o", "r"), rfl⟩ (by decide)

/-- C6 counterexample: the claim says that HTTP 404 and an empty release
list both yield `should_rebuild=true` with reason `no_releases`.  Concretely:
in `check_changes.py` a 404 yields reason `api_error`, not `no_releases`;
and in `run_signing.py` a missing release yields `should_rebuild=false`
(a skip), not `true`. -/
theorem C6_counterexample :
    check_github_release_version
        { repo_url := some "https://github.com/o/r", use_prerelease := true } "T" []
        (.httpError 404) = .result true (some "api_error") ∧
    check_github_release_version
        { repo_url := some "https://github.com/o/r", use_prerelease := true } "T" []
        (.httpError 404) ≠ .result true (some "no_releases") ∧
    should_rebuild_task { repo_url := some "https://github.com/o/r" } "T" [] true (.ok none)
        false = (false, none, none) := by
  refine ⟨by decide, by decide, by decide⟩

/-- C6 (amended): with no release available, the two scripts behave
differently.  In `check_changes.py`, an empty release list (prerelease mode)
is non-fatal and yields `should_rebuild=true` with reason `no_releases`,
while HTTP 404 is non-fatal and yields `should_rebuild=true` with reason
`api_error`.  In `run_signing.py`, `fetch_latest_release` maps 404 and an
empty release list to `None`, and `should_rebuild_task` then returns
`should_rebuild=false` with no download URL and no cache entry. -/
theorem C6_no_releases_amended :
    (∀ (task : Task) (name : String) (cache : List (String × VersionInfo)),
      task.repo_url.getD "" ≠ "" →
      (∃ pr, parse_repo_url (task.repo_url.getD "") = .ok pr) →
      task.use_prerelease = true →
      check_github_release_version task name cache (.success (.many [])) =
        .result true (some "no_releases")) ∧
    (∀ (task : Task) (name : String) (cache : List (String × VersionInfo)),
      task.repo_url.getD "" ≠ "" →
      (∃ pr, parse_repo_url (task.repo_url.getD "") = .ok pr) →
      check_github_release_version task name cache (.httpError 404) =
        .result true (some "api_error")) ∧
    fetchLatestStable (.httpErr 404) = .ok none ∧
    fetchLatestPrerelease (.ok []) = .ok none ∧
    fetchLatestPrerelease (.httpErr 404) = .ok none ∧
    (∀ (task : Task) (name : String) (cache : List (String × VersionInfo)) (force : Bool),
      task.ipa_url.getD "" = "" →
      task.repo_url.getD "" ≠ "" →
      (∃ pr, parse_repo_url (task.repo_url.getD "") = .ok pr) →
      should_rebuild_task task name cache true (.ok none) force = (false, none, none)) := by
  refine ⟨?_, ?_, rfl, rfl, rfl, ?_⟩
  · intro task name cache hrepo ⟨pr, hparse⟩ hpre
    simp [check_github_release_version, hrepo, hparse, hpre, selectPrerelease]
  · intro task name cache hrepo ⟨pr, hparse⟩
    simp [check_github_release_version, hrepo, hparse]
  · intro task name cache force hipa hrepo ⟨pr, hparse⟩
    simp [should_rebuild_task, hipa, hrepo, hparse]

/-- Closed witness for the amended C6. -/
theorem C6_witness :
    check_github_release_version
        { repo_url := some "https://github.com/o/r", use_prerelease := true } "T" []
        (.success (.many [])) = .result true (some "no_releases") ∧
    should_rebuild_task { repo_url := some "https://github.com/o/r" } "T" [] true (.ok none)
        true = (false, none, none) :=
  ⟨C6_no_releases_amended.1 { repo_url := some "https://github.com/o/r", use_prerelease := true }
      "T" [] (by decide) ⟨("o", "r"), rfl⟩ rfl,
   C6_no_releases_amended.2.2.2.2.2 { repo_url := some "https://github.com/o/r" } "T" [] true
      rfl (by decide) ⟨("o", "r"), rfl⟩⟩

/-- C5 counterexample: a run of `run_signing.main` in which the first task's
release fetch returns HTTP 403.  The exception is caught inside
`should_rebuild_task` (its blanket `except Exception`), the task is skipped
as if up to date, the run continues to the second task and terminates with
exit code 0 — not a fatal non-zero termination as the claim states. -/
theorem C5_counterexample :
    run_signing_main { rebuild_all := false, rebuild_tasks := none, hasClient := true }
      [({ task_name := some "A", repo_url := some "https://github.com/o/r" },
        { fetched := .httpErr 403 }),
       ({ task_name := some "B", ipa_url := some "https://example.com/x.ipa" }, {})]
      [] =
      (0, { cache := [], any_fail := false, processedCount := 1, skippedCount := 1 }) := by
  rfl

/-- C5 (amended): HTTP 403 is fatal for the whole run only in
`check_changes.py`, where `check_github_release_version` calls `sys.exit(1)`
and hence the planner loop aborts the process; in `run_signing.py` the 403
raised by `_make_request` is caught per task by `should_rebuild_task`'s
blanket `except Exception` and degrades to `(False, None, None)` — a
per-task skip — and the run continues with later tasks. -/
theorem C5_quota_amended :
    (∀ (task : Task) (name : String) (cache : List (String × VersionInfo)),
      task.repo_url.getD "" ≠ "" →
      (∃ pr, parse_repo_url (task.repo_url.getD "") = .ok pr) →
      check_github_release_version task name cache (.httpError 403) = .fatalExit 1) ∧
    (∀ (cache : List (String × VersionInfo)) (env : String → CCFetch) (t : Task)
      (ts : List Task) (name : String),
      truthyName t = some name →
      t.ipa_url.getD "" = "" →
      t.repo_url.getD "" ≠ "" →
      (∃ pr, parse_repo_url (t.repo_url.getD "") = .ok pr) →
      env name = .httpError 403 →
      rebuildLoop cache env (t :: ts) = .error 1) ∧
    (∀ (task : Task) (name : String) (cache : List (String × VersionInfo)) (force : Bool),
      task.ipa_url.getD "" = "" →
      task.repo_url.getD "" ≠ "" →
      (∃ pr, parse_repo_url (task.repo_url.getD "") = .ok pr) →
      should_rebuild_task task name cache true (.httpErr 403) force = (false, none, none)) := by
  refine ⟨?_, ?_, ?_⟩
  · intro task name cache hrepo ⟨pr, hparse⟩
    simp [check_github_release_version, hrepo, hparse]
  · intro cache env t ts name hname hipa hrepo ⟨pr, hparse⟩ henv
    simp [rebuildLoop, hname, hipa, hrepo, henv, check_github_release_version, hparse]
  · intro task name cache force hipa hrepo ⟨pr, hparse⟩
    simp [should_rebuild_task, hipa, hrepo, hparse]

/-- Closed witness for the amended C5. -/
theorem C5_witness :
    check_github_release_version { repo_url := some "https://github.com/o/r" } "T" []
        (.httpError 403) = .fatalExit 1 ∧
    rebuildLoop [] (fun _ => .httpError 403)
        [{ task_name := some "A", repo_url := some "https://github.com/o/r" }] = .error 1 ∧
    should_rebuild_task { repo_url := some "https://github.com/o/r" } "T" [] true
        (.httpErr 403) false = (false, none, none) :=
  ⟨C5_quota_amended.1 { repo_url := some "https://github.com/o/r" } "T" [] (by decide)
      ⟨("o", "r"), rfl⟩,
   C5_quota_amended.2.1 [] (fun _ => .httpError 403)
      { task_name := some "A", repo_url := some "https://github.com/o/r" } [] "A" rfl rfl
      (by decide) ⟨("o", "r"), rfl⟩ rfl,
   C5_quota_amended.2.2 { repo_url := some "https://github.com/o/r" } "T" [] false rfl
      (by decide) ⟨("o", "r"), rfl⟩⟩

/-- C1 counterexample: a cached entry that exists but has an empty `version`
string, with a live tag that differs from it.  The claim's case split makes
this `version_changed` (the cached version differs from the live tag), but
the code's Python-truthiness test `if not cached_version` makes it
`first_run`. -/
theorem C1_counterexample :
    (lookupStr "T"
        [("T", ({ version := some "", published_at := some "2024-01-01T00:00:00Z" } :
          VersionInfo))]).isSome = true ∧
    (some "" : Option String) ≠ some "v1" ∧
    check_github_release_version { repo_url := some "https://github.com/o/r" } "T"
        [("T", { version := some "", published_at := some "2024-01-01T00:00:00Z" })]
        (.success (.one { tag_name := some "v1", published_at := some "p" })) =
      .result true (some "first_run") :=
  ⟨rfl, by decide, by decide⟩

/-- C1 (amended): for a `ReleaseTracked` task whose live release is resolved
(repo URL parses, release fetched, and — on the signing side — an asset
matched), the rebuild check returns `first_run` when the cache has no entry
for the task **or the entry's version is missing or empty** (Python-falsy);
`version_changed` when the truthy cached version differs from the live
`tag_name`; `republished` when the versions are equal but `published_at`
differs; and `should_rebuild=false` with reason `up_to_date` and no new
cache entry (`version_info = None`) when both are identical. -/
theorem C1_rebuild_check_amended
    (task : Task) (name : String) (cache : List (String × VersionInfo)) (release : Release)
    (asset : Asset)
    (hipa : task.ipa_url.getD "" = "")
    (hrepo : task.repo_url.getD "" ≠ "")
    (hparse : ∃ pr, parse_repo_url (task.repo_url.getD "") = .ok pr)
    (hpre : task.use_prerelease = false)
    (hasset : find_matching_asset release (task.release_glob.getD "*.ipa") = some asset) :
    (truthyStr ((lookupStr name cache).getD default).version = none →
      check_github_release_version task name cache (.success (.one release)) =
          .result true (some "first_run") ∧
        should_rebuild_task task name cache true (.ok (some release)) false =
          (true, asset.browser_download_url,
            some ⟨release.tag_name, release.published_at, asset.browser_download_url,
              asset.id⟩)) ∧
    (∀ v, truthyStr ((lookupStr name cache).getD default).version = some v →
      (some v : Option String) ≠ release.tag_name →
      check_github_release_version task name cache (.success (.one release)) =
          .result true (some "version_changed") ∧
        should_rebuild_task task name cache true (.ok (some release)) false =
          (true, asset.browser_download_url,
            some ⟨release.tag_name, release.published_at, asset.browser_download_url,
              asset.id⟩)) ∧
    (∀ v, truthyStr ((lookupStr name cache).getD default).version = some v →
      (some v : Option String) = release.tag_name →
      ((lookupStr name cache).getD default).published_at ≠ release.published_at →
      check_github_release_version task name cache (.success (.one release)) =
          .result true (some "republished") ∧
        should_rebuild_task task name cache true (.ok (some release)) false =
          (true, asset.browser_download_url,
            some ⟨release.tag_name, release.published_at, asset.browser_download_url,
              asset.id⟩)) ∧
    (∀ v, truthyStr ((lookupStr name cache).getD default).version = some v →
      (some v : Option String) = release.tag_name →
      ((lookupStr name cache).getD default).published_at = release.published_at →
      check_github_release_version task name cache (.success (.one release)) =
          .result false (some "up_to_date") ∧
        should_rebuild_task task name cache true (.ok (some release)) false =
          (false, asset.browser_download_url, none)) := by
  obtain ⟨pr, hp⟩ := hparse
  refine ⟨?_, ?_, ?_, ?_⟩
  · intro h1
    constructor
    · simp [check_github_release_version, hrepo, hp, hpre, versionCompareCore, h1]
    · simp [should_rebuild_task, hipa, hrepo, hp, hasset, h1]
  · intro v h1 hne
    constructor
    · simp [check_github_release_version, hrepo, hp, hpre, versionCompareCore, h1, hne]
    · simp [should_rebuild_task, hipa, hrepo, hp, hasset, h1, hne]
  · intro v h1 heq hpub
    constructor
    · simp [check_github_release_version, hrepo, hp, hpre, versionCompareCore, h1, ← heq, hpub]
    · simp [should_rebuild_task, hipa, hrepo, hp, hasset, h1, ← heq, hpub]
  · intro v h1 heq hpub
    constructor
    · simp [check_github_release_version, hrepo, hp, hpre, versionCompareCore, h1, ← heq, hpub]
    · simp [should_rebuild_task, hipa, hrepo, hp, hasset, h1, ← heq, hpub]

/-- Concrete release used by the C1 witness. -/
def relV1 : Release where
  tag_name := some "v1"
  published_at := some "p"
  assets := [{ name := some "a.ipa", browser_download_url := some "u", id := some 7 }]

/-- The single asset of `relV1`. -/
def assetV1 : Asset where
  name := some "a.ipa"
  browser_download_url := some "u"
  id := some 7

/-- Concrete task used by the C1 witness. -/
def taskOR : Task where
  repo_url := some "https://github.com/o/r"

/-- Closed witness for the amended C1: the four cache states (no entry,
older version, same version with different publish time, identical) against
the same live release. -/
theorem C1_witness :
    (check_github_release_version taskOR "T" [] (.success (.one relV1)) =
      .result true (some "first_run")) ∧
    (check_github_release_version taskOR "T"
        [("T", { version := some "v0", published_at := some "p" })] (.success (.one relV1)) =
      .result true (some "version_changed")) ∧
    (check_github_release_version taskOR "T"
        [("T", { version := some "v1", published_at := some "q" })] (.success (.one relV1)) =
      .result true (some "republished")) ∧
    (check_github_release_version taskOR "T"
        [("T", { version := some "v1", published_at := some "p" })] (.success (.one relV1)) =
      .result false (some "up_to_date")) ∧
    (should_rebuild_task taskOR "T"
        [("T", { version := some "v1", published_at := some "p" })] true (.ok (some relV1))
        false = (false, some "u", none)) :=
  ⟨((C1_rebuild_check_amended taskOR "T" [] relV1 assetV1 rfl (by decide) ⟨("o", "r"), rfl⟩ rfl
      (by decide)).1 rfl).1,
   ((C1_rebuild_check_amended taskOR "T"
      [("T", { version := some "v0", published_at := some "p" })] relV1 assetV1 rfl (by decide)
      ⟨("o", "r"), rfl⟩ rfl (by decide)).2.1 "v0" rfl (by decide)).1,
   ((C1_rebuild_check_amended taskOR "T"
      [("T", { version := some "v1", published_at := some "q" })] relV1 assetV1 rfl (by decide)
      ⟨("o", "r"), rfl⟩ rfl (by decide)).2.2.1 "v1" rfl rfl (by decide)).1,
   ((C1_rebuild_check_amended taskOR "T"
      [("T", { version := some "v1", published_at := some "p" })] relV1 assetV1 rfl (by decide)
      ⟨("o", "r"), rfl⟩ rfl (by decide)).2.2.2 "v1" rfl rfl rfl).1,
   ((C1_rebuild_check_amended taskOR "T"
      [("T", { version := some "v1", published_at := some "p" })] relV1 assetV1 rfl (by decide)
      ⟨("o", "r"), rfl⟩ rfl (by decide)).2.2.2 "v1" rfl rfl rfl).2⟩

/-- If any external pipeline step fails, `pipelineStep` leaves the cache
untouched. -/
theorem pipelineStep_cache_of_fail (env : TaskEnv) (cache : List (String × VersionInfo))
    (name : String) (ipa_url : Option String) (version_info : Option VersionInfo)
    (h : taskAllOk env = false) :
    (pipelineStep env cache name ipa_url version_info).cache = cache := by
  rcases env with ⟨fet, p, dl, dn, rs, fz, sg, ed, sc⟩
  simp only [taskAllOk] at h
  unfold pipelineStep
  by_cases hu : ipa_url.getD "" = ""
  · rw [if_pos hu]
  · rw [if_neg hu]
    cases p <;> cases dl <;> cases dn <;> cases rs <;> cases fz <;> cases sg <;> cases ed <;>
      cases sc <;> simp_all

/-- If `pipelineStep` changed the cache, every external step succeeded and
the change is exactly one `setStr` of the task's `version_info`. -/
theorem pipelineStep_cache_change (env : TaskEnv) (cache : List (String × VersionInfo))
    (name : String) (ipa_url : Option String) (version_info : Option VersionInfo)
    (h : (pipelineStep env cache name ipa_url version_info).cache ≠ cache) :
    taskAllOk env = true ∧ ∃ vi, version_info = some vi ∧
      (pipelineStep env cache name ipa_url version_info).cache = setStr name vi cache := by
  by_cases hall : taskAllOk env = true
  · refine ⟨hall, ?_⟩
    rcases env with ⟨fet, p, dl, dn, rs, fz, sg, ed, sc⟩
    simp only [taskAllOk, Bool.and_eq_true] at hall
    obtain ⟨⟨⟨⟨⟨⟨⟨h1, h2⟩, h3⟩, h4⟩, h5⟩, h6⟩, h7⟩, h8⟩ := hall
    subst h1 h2 h3 h4 h5 h6 h7 h8
    unfold pipelineStep at h ⊢
    by_cases hu : ipa_url.getD "" = ""
    · rw [if_pos hu] at h
      exact absurd rfl h
    · rw [if_neg hu] at h ⊢
      simp only [Bool.not_true, if_false, Bool.false_eq_true] at h ⊢
      cases version_info with
      | some vi => exact ⟨vi, rfl, rfl⟩
      | none => exact absurd rfl h
  · have hfalse : taskAllOk env = false := by
      revert hall
      cases taskAllOk env <;> simp
    exact absurd (pipelineStep_cache_of_fail env cache name ipa_url version_info hfalse) h

/-- A failing task iteration leaves the cache untouched (skip paths included). -/
theorem processTask_cache_of_fail (cfg : RunCfg) (env : TaskEnv)
    (cache : List (String × VersionInfo)) (task : Task) (h : taskAllOk env = false) :
    (processTask cfg env cache task).cache = cache := by
  unfold processTask
  cases mainTaskDecision cfg env cache task with
  | none => rfl
  | some p =>
    cases p with
    | mk u vi => exact pipelineStep_cache_of_fail env cache _ u vi h

/-- A whole run in which every task's pipeline has a failing step leaves the
cache exactly as loaded. -/
theorem runTasks_cache_of_fail (cfg : RunCfg) :
    ∀ (pairs : List (Task × TaskEnv)) (acc : RunResult),
      (∀ pe ∈ pairs, taskAllOk pe.2 = false) → (runTasks cfg pairs acc).cache = acc.cache
  | [], _, _ => rfl
  | (t, e) :: rest, acc, h => by
    unfold runTasks
    rw [runTasks_cache_of_fail cfg rest _
      (fun pe hpe => h pe (List.mem_cons_of_mem _ hpe))]
    exact processTask_cache_of_fail cfg e acc.cache t (h (t, e) (List.mem_cons_self _ _))

/-- C2: for every task in every run of the signing pipeline, the task's
release-cache entry is written (in memory, hence in the file that
`save_release_cache` persists) only on the path where every external step —
profile lookup, download, non-empty IPA, resign, finalize, non-empty signed
IPA, remote dir, and upload — succeeded, and then by a single assignment of
its `version_info`; on every failure path the cache is exactly as before
that iteration, and a run whose every task fails leaves the loaded cache
unchanged. -/
theorem C2_cache_write_after_success (cfg : RunCfg) (env : TaskEnv)
    (cache : List (String × VersionInfo)) (task : Task) :
    (taskAllOk env = false → (processTask cfg env cache task).cache = cache) ∧
    ((processTask cfg env cache task).cache ≠ cache →
      taskAllOk env = true ∧
      ∃ vi : VersionInfo, (processTask cfg env cache task).cache =
        setStr (task.task_name.getD "") vi cache) ∧
    (∀ (pairs : List (Task × TaskEnv)) (acc : RunResult),
      (∀ pe ∈ pairs, taskAllOk pe.2 = false) → (runTasks cfg pairs acc).cache = acc.cache) := by
  refine ⟨processTask_cache_of_fail cfg env cache task, ?_, runTasks_cache_of_fail cfg⟩
  intro h
  unfold processTask at h ⊢
  cases hdec : mainTaskDecision cfg env cache task with
  | none =>
    rw [hdec] at h
    exact absurd rfl h
  | some p =>
    rw [hdec] at h
    cases p with
    | mk u vi =>
      obtain ⟨hall, vi', _, hs⟩ := pipelineStep_cache_change env cache _ u vi h
      exact ⟨hall, vi', hs⟩

/-- Closed witness for C2: a failed upload (`scp_ok = false`) leaves the
cache entry untouched even though the task would have produced a new
version. -/
theorem C2_witness :
    (processTask { rebuild_all := true } { fetched := .ok (some relV1), scp_ok := false }
        [("T", { version := some "v0" })]
        { task_name := some "T", repo_url := some "https://github.com/o/r" }).cache =
      [("T", { version := some "v0" })] :=
  (C2_cache_write_after_success { rebuild_all := true }
      { fetched := .ok (some relV1), scp_ok := false } [("T", { version := some "v0" })]
      { task_name := some "T", repo_url := some "https://github.com/o/r" }).1 (by decide)

/-- A task present in the list with a truthy name contributes that name. -/
theorem mem_allTaskNames {t : Task} {tasks : List Task} {name : String}
    (ht : t ∈ tasks) (hn : truthyName t = some name) : name ∈ allTaskNames tasks :=
  List.mem_filterMap.mpr ⟨t, ht, hn⟩

/-- Every name in a planner result is the name of some listed task. -/
theorem rebuildLoop_subset (cache : List (String × VersionInfo)) (env : String → CCFetch) :
    ∀ (tasks : List Task) (s : List String),
      rebuildLoop cache env tasks = .ok s → ∀ n ∈ s, n ∈ allTaskNames tasks
  | [], s, h, n, hn => by
    simp only [rebuildLoop] at h
    injection h with h2
    subst h2
    cases hn
  | t :: ts, s, h, n, hn => by
    simp only [rebuildLoop] at h
    cases ht : truthyName t with
    | none =>
      simp only [ht] at h
      have hall : allTaskNames (t :: ts) = allTaskNames ts := by
        simp [allTaskNames, List.filterMap_cons, ht]
      rw [hall]
      exact rebuildLoop_subset cache env ts s h n hn
    | some name0 =>
      simp only [ht] at h
      have hall : allTaskNames (t :: ts) = name0 :: allTaskNames ts := by
        simp [allTaskNames, List.filterMap_cons, ht]
      rw [hall]
      by_cases hip : t.ipa_url.getD "" ≠ ""
      · rw [if_pos hip] at h
        cases hrec : rebuildLoop cache env ts with
        | error e =>
          rw [hrec] at h
          simp [Except.map] at h
        | ok s' =>
          rw [hrec] at h
          simp only [Except.map] at h
          injection h with h2
          subst h2
          rcases List.mem_cons.mp hn with rfl | hn'
          · exact List.mem_cons_self _ _
          · exact List.mem_cons_of_mem _ (rebuildLoop_subset cache env ts s' hrec n hn')
      · rw [if_neg hip] at h
        by_cases hrp : t.repo_url.getD "" ≠ ""
        · rw [if_pos hrp] at h
          cases hc : check_github_release_version t name0 cache (env name0) with
          | fatalExit c =>
            rw [hc] at h
            simp at h
          | result changed reason =>
            rw [hc] at h
            cases hrec : rebuildLoop cache env ts with
            | error e =>
              rw [hrec] at h
              simp [Except.map] at h
            | ok s' =>
              rw [hrec] at h
              simp only [Except.map] at h
              injection h with h2
              subst h2
              cases changed with
              | true =>
                simp only [if_true] at hn
                rcases List.mem_cons.mp hn with rfl | hn'
                · exact List.mem_cons_self _ _
                · exact List.mem_cons_of_mem _ (rebuildLoop_subset cache env ts s' hrec n hn')
              | false =>
                simp only [Bool.false_eq_true, if_false] at hn
                exact List.mem_cons_of_mem _ (rebuildLoop_subset cache env ts s' hrec n hn)
        · rw [if_neg hrp] at h
          cases hrec : rebuildLoop cache env ts with
          | error e =>
            rw [hrec] at h
            simp [Except.map] at h
          | ok s' =>
            rw [hrec] at h
            simp only [Except.map] at h
            injection h with h2
            subst h2
            rcases List.mem_cons.mp hn with rfl | hn'
            · exact List.mem_cons_self _ _
            · exact List.mem_cons_of_mem _ (rebuildLoop_subset cache env ts s' hrec n hn')

/-- Membership in a successful planner result, task by task: `DirectURL`
tasks always join, `ReleaseTracked` tasks join exactly when their check
reports a change, and source-less tasks join with a warning.  Task names are
assumed distinct, as a Python `dict`-of-tasks configuration guarantees. -/
theorem rebuildLoop_mem (cache : List (String × VersionInfo)) (env : String → CCFetch) :
    ∀ (tasks : List Task) (s : List String),
      (allTaskNames tasks).Nodup →
      rebuildLoop cache env tasks = .ok s →
      ∀ t ∈ tasks, ∀ name, truthyName t = some name →
        (t.ipa_url.getD "" ≠ "" → name ∈ s) ∧
        (t.ipa_url.getD "" = "" → t.repo_url.getD "" ≠ "" →
          (name ∈ s ↔ ∃ reason,
            check_github_release_version t name cache (env name) = .result true reason)) ∧
        (t.ipa_url.getD "" = "" → t.repo_url.getD "" = "" → name ∈ s)
  | [], _, _, _, t, ht, _, _ => absurd ht (List.not_mem_nil t)
  | t0 :: ts, s, hnd, h, t, ht, name, hname => by
    simp only [rebuildLoop] at h
    rcases List.mem_cons.mp ht with rfl | htt
    · -- the task under scrutiny is the head of the list
      simp only [hname] at h
      by_cases hip : t.ipa_url.getD "" ≠ ""
      · rw [if_pos hip] at h
        cases hrec : rebuildLoop cache env ts with
        | error e =>
          rw [hrec] at h
          simp [Except.map] at h
        | ok s' =>
          rw [hrec] at h
          simp only [Except.map] at h
          injection h with h2
          subst h2
          exact ⟨fun _ => List.mem_cons_self _ _, fun h3 _ => absurd h3 hip,
            fun h3 _ => absurd h3 hip⟩
      · have hipEq : t.ipa_url.getD "" = "" := not_not.mp hip
        rw [if_neg hip] at h
        by_cases hrp : t.repo_url.getD "" ≠ ""
        · rw [if_pos hrp] at h
          cases hc : check_github_release_version t name cache (env name) with
          | fatalExit c =>
            rw [hc] at h
            simp at h
          | result changed reason =>
            rw [hc] at h
            cases hrec : rebuildLoop cache env ts with
            | error e =>
              rw [hrec] at h
              simp [Except.map] at h
            | ok s' =>
              rw [hrec] at h
              simp only [Except.map] at h
              injection h with h2
              subst h2
              refine ⟨fun h3 => absurd hipEq h3, fun _ _ => ?_, fun _ h4 => absurd h4 hrp⟩
              cases changed with
              | true =>
                simp only [if_true]
                exact ⟨fun _ => ⟨reason, rfl⟩, fun _ => List.mem_cons_self _ _⟩
              | false =>
                simp only [Bool.false_eq_true, if_false]
                constructor
                · intro hmem
                  have hsub := rebuildLoop_subset cache env ts s' hrec name hmem
                  have hall : allTaskNames (t :: ts) = name :: allTaskNames ts := by
                    simp [allTaskNames, List.filterMap_cons, hname]
                  rw [hall] at hnd
                  exact absurd hsub (List.nodup_cons.mp hnd).1
                · rintro ⟨r, hr⟩
                  injection hr with hr1 hr2
                  simp at hr1
        · have hrpEq : t.repo_url.getD "" = "" := not_not.mp hrp
          rw [if_neg hrp] at h
          cases hrec : rebuildLoop cache env ts with
          | error e =>
            rw [hrec] at h
            simp [Except.map] at h
          | ok s' =>
            rw [hrec] at h
            simp only [Except.map] at h
            injection h with h2
            subst h2
            exact ⟨fun h3 => absurd hipEq h3, fun _ h4 => absurd h4 (by rw [hrpEq] at *; simp_all),
              fun _ _ => List.mem_cons_self _ _⟩
    · -- the task under scrutiny is in the tail
      cases ht0 : truthyName t0 with
      | none =>
        simp only [ht0] at h
        have hnd' : (allTaskNames ts).Nodup := by
          have hall : allTaskNames (t0 :: ts) = allTaskNames ts := by
            simp [allTaskNames, List.filterMap_cons, ht0]
          rwa [hall] at hnd
        exact rebuildLoop_mem cache env ts s hnd' h t htt name hname
      | some name0 =>
        simp only [ht0] at h
        have hall : allTaskNames (t0 :: ts) = name0 :: allTaskNames ts := by
          simp [allTaskNames, List.filterMap_cons, ht0]
        rw [hall] at hnd
        have hnd' := (List.nodup_cons.mp hnd).2
        have hn0 : name0 ∉ allTaskNames ts := (List.nodup_cons.mp hnd).1
        have hne : name ≠ name0 := by
          intro hEq
          subst hEq
          exact hn0 (mem_allTaskNames htt hname)
        by_cases hip : t0.ipa_url.getD "" ≠ ""
        · rw [if_pos hip] at h
          cases hrec : rebuildLoop cache env ts with
          | error e =>
            rw [hrec] at h
            simp [Except.map] at h
          | ok s' =>
            rw [hrec] at h
            simp only [Except.map] at h
            injection h with h2
            subst h2
            have ih := rebuildLoop_mem cache env ts s' hnd' hrec t htt name hname
            refine ⟨fun h3 => List.mem_cons_of_mem _ (ih.1 h3), fun h3 h4 => ?_,
              fun h3 h4 => List.mem_cons_of_mem _ (ih.2.2 h3 h4)⟩
            rw [List.mem_cons, or_iff_right hne]
            exact ih.2.1 h3 h4
        · rw [if_neg hip] at h
          by_cases hrp : t0.repo_url.getD "" ≠ ""
          · rw [if_pos hrp] at h
            cases hc : check_github_release_version t0 name0 cache (env name0) with
            | fatalExit c =>
              rw [hc] at h
              simp at h
            | result changed reason =>
              rw [hc] at h
              cases hrec : rebuildLoop cache env ts with
              | error e =>
                rw [hrec] at h
                simp [Except.map] at h
              | ok s' =>
                rw [hrec] at h
                simp only [Except.map] at h
                injection h with h2
                subst h2
                have ih := rebuildLoop_mem cache env ts s' hnd' hrec t htt name hname
                cases changed with
                | true =>
                  simp only [if_true]
                  refine ⟨fun h3 => List.mem_cons_of_mem _ (ih.1 h3), fun h3 h4 => ?_,
                    fun h3 h4 => List.mem_cons_of_mem _ (ih.2.2 h3 h4)⟩
                  rw [List.mem_cons, or_iff_right hne]
                  exact ih.2.1 h3 h4
                | false =>
                  simp only [Bool.false_eq_true, if_false]
                  exact ih
          · rw [if_neg hrp] at h
            cases hrec : rebuildLoop cache env ts with
            | error e =>
              rw [hrec] at h
              simp [Except.map] at h
            | ok s' =>
              rw [hrec] at h
              simp only [Except.map] at h
              injection h with h2
              subst h2
              have ih := rebuildLoop_mem cache env ts s' hnd' hrec t htt name hname
              refine ⟨fun h3 => List.mem_cons_of_mem _ (ih.1 h3), fun h3 h4 => ?_,
                fun h3 h4 => List.mem_cons_of_mem _ (ih.2.2 h3 h4)⟩
              rw [List.mem_cons, or_iff_right hne]
              exact ih.2.1 h3 h4

/-- C8: with the global `rebuild_all` flag the planner returns the full set
of (truthy) task names without consulting the cache or the network; without
it, a task with an `ipa_url` is always in the returned set, a task with a
`repo_url` is in the set exactly when its per-task rebuild check reports a
change, and a task with neither source is included anyway (the warning is
log-only).  Task names are assumed distinct. -/
theorem C8_planner_spec :
    (∀ (tasks : List Task) (cache : List (String × VersionInfo)) (env : String → CCFetch),
      get_tasks_to_rebuild tasks cache true env = .ok (allTaskNames tasks)) ∧
    (∀ (tasks : List Task) (cache : List (String × VersionInfo)) (env : String → CCFetch)
      (s : List String),
      (allTaskNames tasks).Nodup →
      get_tasks_to_rebuild tasks cache false env = .ok s →
      ∀ t ∈ tasks, ∀ name, truthyName t = some name →
        (t.ipa_url.getD "" ≠ "" → name ∈ s) ∧
        (t.ipa_url.getD "" = "" → t.repo_url.getD "" ≠ "" →
          (name ∈ s ↔ ∃ reason,
            check_github_release_version t name cache (env name) = .result true reason)) ∧
        (t.ipa_url.getD "" = "" → t.repo_url.getD "" = "" → name ∈ s)) :=
  ⟨fun _ _ _ => rfl, fun tasks cache env s hnd h => rebuildLoop_mem cache env tasks s hnd h⟩

/-- Concrete task list for the C8 witness: a `DirectURL` task, a
`ReleaseTracked` task, and a source-less task. -/
def c8Tasks : List Task :=
  [{ task_name := some "A", ipa_url := some "https://example.com/x.ipa" },
   { task_name := some "B", repo_url := some "https://github.com/o/r" },
   { task_name := some "C" }]

/-- Closed witness for C8, with the network returning a fresh release for
task `B` against an empty cache. -/
theorem C8_witness :
    get_tasks_to_rebuild c8Tasks [] true (fun _ => .urlError) = .ok ["A", "B", "C"] ∧
    ("A" ∈ (["A", "B", "C"] : List String)) ∧
    ("B" ∈ (["A", "B", "C"] : List String) ↔ ∃ reason,
      check_github_release_version { task_name := some "B", repo_url := some "https://github.com/o/r" }
        "B" [] (.success (.one relV1)) = .result true reason) ∧
    ("C" ∈ (["A", "B", "C"] : List String)) :=
  ⟨C8_planner_spec.1 c8Tasks [] (fun _ => .urlError),
   (C8_planner_spec.2 c8Tasks [] (fun _ => .success (.one relV1)) ["A", "B", "C"] (by decide) rfl
      { task_name := some "A", ipa_url := some "https://example.com/x.ipa" }
      (by decide) "A" rfl).1 (by decide),
   (C8_planner_spec.2 c8Tasks [] (fun _ => .success (.one relV1)) ["A", "B", "C"] (by decide) rfl
      { task_name := some "B", repo_url := some "https://github.com/o/r" }
      (by decide) "B" rfl).2.1 rfl (by decide),
   (C8_planner_spec.2 c8Tasks [] (fun _ => .success (.one relV1)) ["A", "B", "C"] (by decide) rfl
      { task_name := some "C" } (by decide) "C" rfl).2.2 rfl rfl⟩

/-- Two distinct devices sharing the id `"a"`. -/
def devAX : Json := .obj [("id", .str "a"), ("name", .str "x")]

/-- The second device with id `"a"`. -/
def devAY : Json := .obj [("id", .str "a"), ("name", .str "y")]

/-- C3 counterexample: `sorted` is stable, so two distinct devices with the
same id keep their input order; permuting them permutes the serialized JSON
and hence the SHA-256 digest.  The two lists below are permutations of each
other, yet `calculate_checksum` differs. -/
theorem C3_counterexample :
    ([devAY, devAX] : List Json).Perm [devAX, devAY] ∧
    calculate_checksum [devAY, devAX] ≠ calculate_checksum [devAX, devAY] :=
  ⟨List.Perm.swap devAX devAY [], by decide⟩

/-- C3 (amended): for every device list whose ids (a missing id reading as
`""`) are pairwise distinct, and every permutation of that list,
`calculate_checksum` returns the same string for the list and for the
permuted list — the checksum sorts by id, serializes with sorted keys and no
insignificant whitespace, and formats the SHA-256 digest as `"sha256:"`
followed by lowercase hex. -/
theorem C3_checksum_permutation_invariant (l l' : List Json) (hperm : l.Perm l')
    (hids : (l.map getId).Nodup) :
    calculate_checksum l = calculate_checksum l' := by
  unfold calculate_checksum
  have hinj : ∀ a ∈ l, ∀ b ∈ l, getId a = getId b → a = b :=
    fun a ha b hb hab => List.inj_on_of_nodup_map hids ha hb hab
  rw [sortByKey_eq_of_perm getId hperm hinj]

/-- Closed witness for the amended C3: two devices with distinct ids,
swapped. -/
theorem C3_witness :
    calculate_checksum [devAX, .obj [("id", .str "b"), ("name", .str "z")]] =
      calculate_checksum [.obj [("id", .str "b"), ("name", .str "z")], devAX] :=
  C3_checksum_permutation_invariant
    [devAX, .obj [("id", .str "b"), ("name", .str "z")]]
    [.obj [("id", .str "b"), ("name", .str "z")], devAX]
    (List.Perm.swap (Json.obj [("id", .str "b"), ("name", .str "z")]) devAX [])
    (by decide)

end SideloadedIPA
